import Mathlib

/-!
Verification of the matchplay_slack_interface repository: a shallow
embedding of `monitor_tournament.py` and `slack_notifier.py` in Lean 4,
together with theorems settling the specification's claims about the
polling/deduplication loop, URL extraction, configuration loading,
Slack message delivery, and message formatting.
-/

namespace Matchplay

/-! ## URL tournament-id extraction (`monitor_tournament.py`, lines 54-62)

`extract_tournament_id` runs `re.search(r'/tournaments/(\d+)', url)` and
returns `int(match.group(1))` on success, `None` otherwise.  The regex
semantics are embedded directly: the search scans for the leftmost
position at which the literal `/tournaments/` occurs immediately followed
by at least one digit; the capture group is the maximal digit run there. -/

/-- The literal part of the pattern `/tournaments/(\d+)`. -/
def litTournaments : List Char := "/tournaments/".data

/-- Whether `lit` occurs verbatim at the head of `cs`. -/
def startsWithLit : List Char → List Char → Bool
  | [], _ => true
  | _ :: _, [] => false
  | l :: ls, c :: cs => l == c && startsWithLit ls cs

/-- Numeric value of a digit string, as computed by Python `int`. -/
def digitsVal (cs : List Char) : Nat :=
  cs.foldl (fun a c => a * 10 + (c.toNat - 48)) 0

/-- Whether the pattern `/tournaments/(\d+)` matches at the head of `cs`:
the literal is there and at least one digit follows. -/
def matchHere (cs : List Char) : Bool :=
  startsWithLit litTournaments cs &&
    match cs.drop litTournaments.length with
    | d :: _ => d.isDigit
    | [] => false

/-- The value captured at a head match: the maximal digit run after the
literal (the greedy `(\d+)` group), converted to a number. -/
def captureHere (cs : List Char) : Nat :=
  digitsVal ((cs.drop litTournaments.length).takeWhile Char.isDigit)

/-- Embedding of `re.search(r'/tournaments/(\d+)', url)`: scan for the leftmost
position where the pattern matches and return the captured number. -/
def searchTournaments : List Char → Option Nat
  | [] => none
  | c :: cs =>
    if matchHere (c :: cs) then some (captureHere (c :: cs))
    else searchTournaments cs

/-- The function `extract_tournament_id` (`monitor_tournament.py`, lines 54-62),
restricted to string arguments.  The `try` body either returns the first
match's captured integer or `None`; no digit-run overflows or
`ValueError`s are possible, so the except branch is unreachable for
strings. -/
def extract_tournament_id (tournament_url : String) : Option Nat :=
  searchTournaments tournament_url.data

/-- A Python argument value as passed to `extract_tournament_id`:
either a string or some non-string object. -/
inductive PyArg
  | ofStr (s : String)
  | nonStr
  deriving DecidableEq

/-- The function `extract_tournament_id` on an arbitrary argument: for a non-string,
`re.search` raises `TypeError`, which line 61 catches and converts to
`None`. -/
def extract_tournament_id_py : PyArg → Option Nat
  | .ofStr s => extract_tournament_id s
  | .nonStr => none

/-- Specification-side description of the first match: the smallest
index `i` at which the pattern matches, found by scanning all indices in
order. -/
def specFirstMatchIdx (cs : List Char) : Option Nat :=
  (List.range cs.length).find? (fun i => matchHere (cs.drop i))

/-- Specification-side extraction: the number captured at the first
matching index, when one exists. -/
def specExtract (s : String) : Option Nat :=
  (specFirstMatchIdx s.data).map (fun i => captureHere (s.data.drop i))

/-- Whether some position of `cs` matches the pattern. -/
def hasMatch (cs : List Char) : Bool :=
  (List.range cs.length).any (fun i => matchHere (cs.drop i))

/-- Whether an arbitrary Python argument is a string containing a match. -/
def argHasMatch : PyArg → Bool
  | .ofStr s => hasMatch s.data
  | .nonStr => false

/-! ## Configuration loading (`monitor_tournament.py`, lines 35-51) -/

/-- A JSON value, as produced by `json.load`. -/
inductive JsonVal
  | num (n : Int)
  | str (s : String)
  | bool (b : Bool)
  | null
  | arr (elems : List JsonVal)
  | obj (fields : List (String × JsonVal))
  deriving BEq

/-- The outcome of `open(config_path)` followed by `json.load`: the file
may be missing (`FileNotFoundError`), unparsable (`json.JSONDecodeError`),
or yield a JSON value. -/
inductive ConfigReadOutcome
  | fileNotFound
  | jsonDecodeErr
  | ok (v : JsonVal)

/-- The default configuration returned at lines 44-51. -/
def defaultConfig : JsonVal :=
  .obj [("api", .obj [("poll_interval_seconds", .num 300)]),
        ("notifications", .obj [("standings_update_interval_minutes", .num 30)])]

/-- The function `load_config` (`monitor_tournament.py`, lines 35-51): return the
parsed JSON, or the built-in defaults when the file is missing or
invalid (both exception types are caught at line 41, the failure is
logged, and the defaults are returned). -/
def load_config : ConfigReadOutcome → JsonVal
  | .fileNotFound => defaultConfig
  | .jsonDecodeErr => defaultConfig
  | .ok v => v

/-! ## Webhook delivery (`slack_notifier.py`, lines 34-75) -/

/-- The outcome of `requests.post`: either a connection-level failure
(raising a `RequestException`) or a response carrying a status code. -/
inductive PostOutcome
  | connError
  | resp (status : Nat)
  deriving DecidableEq

/-- The method `requests.Response.raise_for_status` raises `HTTPError` exactly for
client errors (400-499) and server errors (500-599); all other status
codes, including every 2xx and 3xx, return normally. -/
def raiseForStatusRaises (status : Nat) : Bool :=
  (400 ≤ status && status < 500) || (500 ≤ status && status < 600)

/-- The method `SlackNotifier.send_message` (`slack_notifier.py`, lines 34-75): post
the payload; `raise_for_status` converts error statuses into a
`RequestException`, every such exception is caught, logged and turned
into `False`; otherwise log success and return `True`.  No retry is
performed and no exception escapes. -/
def send_message (o : PostOutcome) : Bool :=
  match o with
  | .connError => false
  | .resp s => if raiseForStatusRaises s then false else true

/-! ## Message formatting (`slack_notifier.py`)

A Block Kit block is one of the four shapes the notifier builds.
`Block.sect` models `{"type": "section", "text": {"type": "mrkdwn", ...}}`. -/

inductive Block
  | header (text : String)
  | sect (text : String)
  | divider
  | context (text : String)
  deriving BEq, DecidableEq

/-- A player assignment record consumed by `notify_round_start`; each
field models a dict key that may be absent. -/
structure Assignment where
  machine_name : Option String
  player_name : Option String
  pintips : Option (List String)
  deriving DecidableEq

/-- A player entry in a game-results record (`notify_game_results`). -/
structure ResultPlayer where
  position : Option Nat
  player_name : Option String
  score : Int
  deriving DecidableEq

/-- The `game_results` dict consumed by `notify_game_results`. -/
structure GameResults where
  machine_name : Option String
  round_name : Option String
  players : Option (List ResultPlayer)
  deriving DecidableEq

/-- One standings entry consumed by `notify_tournament_standings`. -/
structure Standing where
  position : Option Nat
  name : Option String
  points : Int
  gamesPlayed : Int
  deriving DecidableEq

/-- Python `list.sort(key=...)` is a stable ascending sort; an insertion
sort inserting each element before strictly greater keys yields exactly
the stable-sorted result. -/
def insertStable (key : α → Nat) (x : α) : List α → List α
  | [] => [x]
  | y :: ys => if key y < key x then y :: insertStable key x ys else x :: y :: ys

/-- Stable ascending sort by a numeric key, the result of
`l.sort(key=...)` on Python lists. -/
def sortByKey (key : α → Nat) : List α → List α
  | [] => []
  | x :: xs => insertStable key x (sortByKey key xs)

/-- The sort key `lambda x: x.get('position', 999)` of
`slack_notifier.py` lines 193 and 257. -/
def posKeyR (p : ResultPlayer) : Nat := p.position.getD 999

/-- Same key on standings entries. -/
def posKeyS (s : Standing) : Nat := s.position.getD 999

/-- Insert a comma every three characters, counting from the right; the
input is the reversed digit list. -/
def group3 : List Char → List Char
  | a :: b :: c :: d :: rest => a :: b :: c :: ',' :: group3 (d :: rest)
  | l => l

/-- Python's format spec `{n:,}` on a natural number. -/
def commaFmtNat (n : Nat) : String :=
  String.mk ((group3 (toString n).data.reverse).reverse)

/-- Python's format spec `{n:,}` on an integer. -/
def commaFmtInt (i : Int) : String :=
  if i < 0 then "-" ++ commaFmtNat i.natAbs else commaFmtNat i.natAbs

/-- The position emoji of `notify_game_results` line 224: `position` is
`player.get('position', '?')`, and an absent position compares unequal
to 1, 2 and 3, falling through to the game emoji. -/
def positionEmoji : Option Nat → String
  | some 1 => "🥇"
  | some 2 => "🥈"
  | some 3 => "🥉"
  | _ => "🎮"

/-- The per-player line of the game-results table (lines 218-226). -/
def resultLine (p : ResultPlayer) : String :=
  positionEmoji p.position ++ " *" ++ p.player_name.getD "Unknown Player" ++ "*: " ++
    commaFmtInt p.score ++ " points\n"

/-- The method `SlackNotifier.notify_game_results` (`slack_notifier.py`, lines
171-239).  The returned pair is (the Block Kit blocks of the message,
the caller's `game_results` record after the call): `players` aliases
`game_results['players']`, so the in-place `players.sort(...)` at line
193 reorders the caller's list whenever the key was present (when the
key is absent, `.get` returns a fresh empty list and the caller's dict
is unchanged). -/
def notify_game_results (game_results : GameResults) (tournament_name : String) :
    List Block × GameResults :=
  let machine_name := game_results.machine_name.getD "Unknown Machine"
  let round_name := game_results.round_name.getD "Unknown Round"
  let players := sortByKey posKeyR (game_results.players.getD [])
  let results_text := String.join (players.map resultLine)
  ([Block.header "🏆 Game Results",
    Block.sect ("*Tournament:* " ++ tournament_name ++ "\n*Round:* " ++ round_name ++
      "\n*Machine:* " ++ machine_name),
    Block.divider,
    Block.sect results_text],
   { game_results with players := game_results.players.map (sortByKey posKeyR) })

/-- The player list of one machine section (lines 124-127). -/
def playerText (assignments : List Assignment) : String :=
  String.join (assignments.enum.map (fun ia =>
    "• Player " ++ toString (ia.1 + 1) ++ ": *" ++
      ia.2.player_name.getD "Unknown Player" ++ "*\n"))

/-- The tips section text (lines 139-141): at most the first 3 tips. -/
def tipText (tips : List String) : String :=
  "💡 *Tips:*\n" ++ String.join ((tips.take 3).map (fun tip => "• " ++ tip ++ "\n"))

/-- Grouping of assignments by machine name (lines 114-120); Python
dicts preserve insertion order, so the groups appear in order of first
occurrence and each group keeps the original relative order. -/
def groupByMachine (player_assignments : List Assignment) :
    List (String × List Assignment) :=
  player_assignments.foldl (fun machine_groups a =>
    let machine := a.machine_name.getD "Unknown Machine"
    if machine_groups.any (fun g => g.1 == machine) then
      machine_groups.map (fun g => if g.1 == machine then (g.1, g.2 ++ [a]) else g)
    else
      machine_groups ++ [(machine, [a])]) []

/-- The blocks appended for one machine group (lines 123-153).  The
pintips check at line 138 reads `assignment`, the inner loop's variable,
which after the loop holds the LAST assignment of the group — so only
the last assignment's pintips decide whether a tips section appears.
(The grouping never produces an empty group, so the `none` branch of
`getLast?` is unreachable.) -/
def machineBlocks (machine : String) (assignments : List Assignment) : List Block :=
  [Block.sect ("*🎮 " ++ machine ++ "*\n" ++ playerText assignments)] ++
  (match assignments.getLast? with
   | some assignment =>
     match assignment.pintips with
     | some tips => if tips.isEmpty then [] else [Block.sect (tipText tips)]
     | none => []
   | none => []) ++
  [Block.divider]

/-- The method `SlackNotifier.notify_round_start` (`slack_notifier.py`, lines
77-169): the Block Kit blocks of the round-start message. -/
def notify_round_start (round_name : String) (player_assignments : List Assignment)
    (tournament_name : String) : List Block :=
  let headerBlocks :=
    [Block.header ("🎯 New Round Starting: " ++ round_name),
     Block.sect ("*Tournament:* " ++ tournament_name ++ "\n*Round:* " ++ round_name ++
       "\n\nPlease check your game assignments below:"),
     Block.divider]
  let blocks := (groupByMachine player_assignments).foldl
    (fun blocks g => blocks ++ machineBlocks g.1 g.2) headerBlocks
  blocks ++
    [Block.context "Remember to enter your scores in MatchPlay when finished. Good luck!"]

/-- The position marker of `notify_tournament_standings` line 290:
`position` is `player.get('position', '?')`; an absent position falls
through to `f"{position}."`, rendering as `?.`. -/
def positionMarker : Option Nat → String
  | some 1 => "🥇"
  | some 2 => "🥈"
  | some 3 => "🥉"
  | some k => toString k ++ "."
  | none => "?" ++ "."

/-- The per-player line of the standings table (lines 283-292). -/
def standingLine (p : Standing) : String :=
  positionMarker p.position ++ " *" ++ p.name.getD "Unknown Player" ++ "* - " ++
    toString p.points ++ " pts (" ++ toString p.gamesPlayed ++ " games)\n"

/-- The method `SlackNotifier.notify_tournament_standings` (`slack_notifier.py`,
lines 241-316).  Returned pair: (the message blocks, the caller's
`standings` list after the call).  `standings.sort(...)` at line 257
mutates the argument list in place, so the second component is the
sorted list.  `top_standings = standings[:top_n]` and the header text
interpolates `len(top_standings)`. -/
def notify_tournament_standings (standings : List Standing) (tournament_name : String)
    (top_n : Nat := 10) : List Block × List Standing :=
  let sorted := sortByKey posKeyS standings
  let top_standings := sorted.take top_n
  let table_text := String.join (top_standings.map standingLine)
  ([Block.header "📊 Current Tournament Standings",
    Block.sect ("*Tournament:* " ++ tournament_name ++
      "\n\nHere are the current top " ++ toString top_standings.length ++ " players:"),
    Block.divider,
    Block.sect table_text,
    Block.context "View complete standings in the MatchPlay Events app or website."],
   sorted)

/-! ## The polling/dedup loop (spec §4.1)

`src/monitor_tournament.py` is truncated after `extract_tournament_id`:
the loop body itself (spec §4.1 steps 1-5) is not under `src/`, only its
global state initialization (lines 28-32) is.  The loop is therefore
modelled from the spec; the initial state comes from the source. -/

/-- A round as observed by one poll: its identifier and whether its
status indicates "active". -/
structure RoundObs where
  id : Nat
  active : Bool
  deriving DecidableEq

/-- A game as observed by one poll: its identifier and whether its
status indicates "completed". -/
structure GameObs where
  id : Nat
  completed : Bool
  deriving DecidableEq

/-- One poll's observations: the fetched round list, game list, and the
wall-clock time `now` of the iteration (in minutes). -/
structure Poll where
  rounds : List RoundObs
  games : List GameObs
  time : Int
  deriving DecidableEq

/-- The loop's mutable state: `processed_rounds`, `processed_games` and
`last_standings_update` of `monitor_tournament.py` lines 28-31 (sets are
modelled as lists of identifiers, membership via `contains`). -/
structure MonitorState where
  processed_rounds : List Nat
  processed_games : List Nat
  last_standings_update : Int
  deriving DecidableEq

/-- The initial state from `monitor_tournament.py` lines 28-31:
`last_standings_update = datetime.now() - timedelta(hours=1)` (60
minutes before start), `processed_rounds = set()`,
`processed_games = set()`. -/
def initState (startTime : Int) : MonitorState :=
  ⟨[], [], startTime - 60⟩

/-- Modelled from the spec: §4.1 steps 2-3, which are absent from
`src/`.  "For each round not present in SeenRounds whose status
indicates active: invoke round-start notification, add round id to
SeenRounds" (and identically for completed games).  `flag` is the
status test, `idOf` the identifier; the result is (the identifiers
notified in order, the seen-set after the pass). -/
def processNew (flag : α → Bool) (idOf : α → Nat) (seen : List Nat) :
    List α → List Nat × List Nat
  | [] => ([], seen)
  | r :: rs =>
    if flag r && !seen.contains (idOf r) then
      let rest := processNew flag idOf (seen ++ [idOf r]) rs
      (idOf r :: rest.1, rest.2)
    else processNew flag idOf seen rs

/-- Step 2 of a poll: announce newly active rounds. -/
def processRounds (seen : List Nat) (rounds : List RoundObs) : List Nat × List Nat :=
  processNew RoundObs.active RoundObs.id seen rounds

/-- Step 3 of a poll: announce newly completed games. -/
def processGames (seen : List Nat) (games : List GameObs) : List Nat × List Nat :=
  processNew GameObs.completed GameObs.id seen games

/-- Modelled from the spec: §4.1 step 4, absent from `src/`.  "If
`now - LastStandingsUpdate >= standings_update_interval`: fetch
standings, invoke standings notification, set
LastStandingsUpdate = now."  Returns (whether a standings notification
was sent, the new `last_standings_update`). -/
def stepStandings (interval last now : Int) : Bool × Int :=
  if interval ≤ now - last then (true, now) else (false, last)

/-- The notifications and state change of one loop iteration. -/
structure StepOut where
  roundNotifs : List Nat
  gameNotifs : List Nat
  standingsSent : Bool
  state : MonitorState
  deriving DecidableEq

/-- Modelled from the spec: one iteration of the polling loop (§4.1
steps 2-4) on one poll's observations. -/
def stepPoll (interval : Int) (st : MonitorState) (p : Poll) : StepOut :=
  let rounds := processRounds st.processed_rounds p.rounds
  let games := processGames st.processed_games p.games
  let standings := stepStandings interval st.last_standings_update p.time
  ⟨rounds.1, games.1, standings.1, ⟨rounds.2, games.2, standings.2⟩⟩

/-- The notifications of a whole run: round-start and game-result
notifications in emission order, the times of standings sends, and the
final state. -/
structure RunOut where
  roundNotifs : List Nat
  gameNotifs : List Nat
  sendTimes : List Int
  state : MonitorState
  deriving DecidableEq

/-- Modelled from the spec: the polling loop run over a sequence of
polls. -/
def runPolls (interval : Int) (st : MonitorState) : List Poll → RunOut
  | [] => ⟨[], [], [], st⟩
  | p :: ps =>
    let o := stepPoll interval st p
    let r := runPolls interval o.state ps
    ⟨o.roundNotifs ++ r.roundNotifs, o.gameNotifs ++ r.gameNotifs,
     (if o.standingsSent then [p.time] else []) ++ r.sendTimes, r.state⟩

/-- Whether poll `p` observes identifier `n` with the given status flag. -/
def observedIn (flag : α → Bool) (idOf : α → Nat) (n : Nat) (l : List α) : Bool :=
  l.any (fun r => flag r && idOf r == n)

/-- Whether round `R` is observed as active in poll `p`. -/
def observedActiveIn (R : Nat) (p : Poll) : Bool :=
  observedIn RoundObs.active RoundObs.id R p.rounds

/-- Whether game `G` is observed as completed in poll `p`. -/
def observedCompletedIn (G : Nat) (p : Poll) : Bool :=
  observedIn GameObs.completed GameObs.id G p.games

/-! ## Lemmas about the regex search -/

/-- The scanning search equals the first-matching-index description. -/
lemma searchTournaments_eq_find : ∀ cs : List Char,
    searchTournaments cs =
      ((List.range cs.length).find? (fun i => matchHere (cs.drop i))).map
        (fun i => captureHere (cs.drop i))
  | [] => rfl
  | c :: cs => by
    have ih := searchTournaments_eq_find cs
    by_cases h : matchHere (c :: cs)
    · rw [searchTournaments, if_pos h, List.length_cons, List.range_succ_eq_map,
        List.find?_cons_of_pos _ (by simpa using h)]
      simp
    · rw [searchTournaments, if_neg h, List.length_cons, List.range_succ_eq_map,
        List.find?_cons_of_neg _ (by simpa using h), List.find?_map, ih,
        Option.map_map]
      rfl

/-! ## Claim theorems: extraction, config, delivery -/

/-- C3: for every input string, `extract_tournament_id` returns the
integer captured by the first match of `/tournaments/(\d+)` when such a
match exists (`specExtract`), is defined exactly when a match exists,
and in particular returns 12345 for the sample URL and none for the
URL without an id. -/
theorem extract_tournament_id_first_match :
    (∀ s : String, extract_tournament_id s = specExtract s) ∧
    (∀ s : String, (extract_tournament_id s).isSome = hasMatch s.data) ∧
    extract_tournament_id "https://matchplay.events/tournaments/12345/view" = some 12345 ∧
    extract_tournament_id "https://matchplay.events/no-id-here" = none := by
  refine ⟨fun s => searchTournaments_eq_find s.data, fun s => ?_, by decide, by decide⟩
  rw [extract_tournament_id, hasMatch, searchTournaments_eq_find]
  rw [Bool.eq_iff_iff]
  simp [List.find?_isSome, List.any_eq_true]

/-- C4: `extract_tournament_id` never raises: for every argument value,
string or not, a failure to match yields `none`. -/
theorem extract_tournament_id_total (a : PyArg) (h : argHasMatch a = false) :
    extract_tournament_id_py a = none := by
  cases a with
  | nonStr => rfl
  | ofStr s =>
    rw [extract_tournament_id_py, extract_tournament_id, searchTournaments_eq_find]
    rw [argHasMatch, hasMatch] at h
    rw [List.find?_eq_none.mpr, Option.map_none']
    intro i hi
    have := List.any_eq_false.mp h i hi
    simpa using this

/-- Witness for C4: the malformed sample URL and a non-string argument
both yield `none`. -/
theorem extract_tournament_id_total_witness :
    extract_tournament_id_py (PyArg.ofStr "https://matchplay.events/no-id-here") = none :=
  extract_tournament_id_total _ (by decide)

/-- C5: when the config file is missing or syntactically invalid JSON,
`load_config` returns the built-in default structure
`{api: {poll_interval_seconds: 300}, notifications:
{standings_update_interval_minutes: 30}}` (and never raises: the
function is total). -/
theorem load_config_defaults (o : ConfigReadOutcome)
    (h : o = ConfigReadOutcome.fileNotFound ∨ o = ConfigReadOutcome.jsonDecodeErr) :
    load_config o =
      JsonVal.obj [("api", JsonVal.obj [("poll_interval_seconds", JsonVal.num 300)]),
        ("notifications", JsonVal.obj [("standings_update_interval_minutes", JsonVal.num 30)])] := by
  rcases h with h | h <;> subst h <;> rfl

/-- Witness for C5: a missing config file yields the defaults. -/
theorem load_config_defaults_witness :
    load_config ConfigReadOutcome.fileNotFound =
      JsonVal.obj [("api", JsonVal.obj [("poll_interval_seconds", JsonVal.num 300)]),
        ("notifications", JsonVal.obj [("standings_update_interval_minutes", JsonVal.num 30)])] :=
  load_config_defaults _ (Or.inl rfl)

/-- Counterexample to C6 as stated: a 304 response is not a 2xx status,
yet `send_message` returns `True` for it (`raise_for_status` only
raises on 4xx/5xx), contradicting "False when the POST ... returns a
non-2xx status". -/
theorem send_message_304_counterexample :
    send_message (PostOutcome.resp 304) = true ∧ ¬(200 ≤ 304 ∧ 304 < 300) := by
  exact ⟨rfl, by omega⟩

/-- C6 amended: `send_message` returns `True` exactly when the POST
completed with a status outside 400-599 (in particular every 2xx and
3xx), and `False` on a connection failure or a 4xx/5xx status; the
failure is logged, no exception propagates (the function is total) and
no retry is attempted (one post outcome determines the result). -/
theorem send_message_status (s : Nat) :
    (send_message (PostOutcome.resp s) = true ↔ (s < 400 ∨ 600 ≤ s)) ∧
    send_message PostOutcome.connError = false := by
  refine ⟨?_, rfl⟩
  rw [send_message, raiseForStatusRaises]
  constructor
  · intro h
    by_contra hc
    push_neg at hc
    have : ((400 ≤ s && s < 500) || (500 ≤ s && s < 600)) = true := by
      simp only [Bool.or_eq_true, Bool.and_eq_true, decide_eq_true_eq]
      omega
    rw [if_pos this] at h
    exact Bool.false_ne_true h
  · intro h
    have : ((400 ≤ s && s < 500) || (500 ≤ s && s < 600)) = false := by
      simp only [Bool.or_eq_false_iff, Bool.and_eq_false_iff, decide_eq_false_iff_not]
      omega
    rw [this]
    rfl

/-- C7: `last_standings_update` starts one hour (60 minutes) before the
current time, so with any configured interval of at most 60 minutes the
first iteration's throttle check already fires and standings are re-sent
immediately after a restart. -/
theorem restart_resends_standings (interval t0 : Int) (p : Poll)
    (hi : interval ≤ 60) (ht : t0 ≤ p.time) :
    (stepPoll interval (initState t0) p).standingsSent = true := by
  rw [stepPoll, initState, stepStandings]
  simp only
  rw [if_pos (by omega)]

/-- Witness for C7: with the default 30-minute interval and the first
poll at the start instant, the very first throttle check fires. -/
theorem restart_resends_standings_witness :
    (stepPoll 30 (initState 0) ⟨[], [], 0⟩).standingsSent = true :=
  restart_resends_standings 30 0 ⟨[], [], 0⟩ (by norm_num) (by norm_num)

/-! ## Lemmas about the stable sort -/

lemma insertStable_perm (key : α → Nat) (x : α) :
    ∀ l : List α, List.Perm (insertStable key x l) (x :: l)
  | [] => List.Perm.refl _
  | y :: ys => by
    rw [insertStable]
    split
    · exact (List.Perm.cons y (insertStable_perm key x ys)).trans
        (List.Perm.swap x y ys)
    · exact List.Perm.refl _

lemma sortByKey_perm (key : α → Nat) : ∀ l : List α, List.Perm (sortByKey key l) l
  | [] => List.Perm.refl _
  | x :: xs =>
    (insertStable_perm key x (sortByKey key xs)).trans
      (List.Perm.cons x (sortByKey_perm key xs))

lemma insertStable_sorted (key : α → Nat) (x : α) :
    ∀ l : List α, l.Sorted (fun a b => key a ≤ key b) →
      (insertStable key x l).Sorted (fun a b => key a ≤ key b)
  | [], _ => List.sorted_singleton x
  | y :: ys, h => by
    rw [List.sorted_cons] at h
    rw [insertStable]
    split
    · rename_i hlt
      rw [List.sorted_cons]
      refine ⟨fun b hb => ?_, insertStable_sorted key x ys h.2⟩
      rcases List.mem_cons.mp ((insertStable_perm key x ys).mem_iff.mp hb) with hb | hb
      · subst hb; omega
      · exact h.1 b hb
    · rename_i hge
      rw [List.sorted_cons]
      refine ⟨fun b hb => ?_, List.sorted_cons.mpr h⟩
      rcases List.mem_cons.mp hb with hb | hb
      · subst hb; omega
      · have := h.1 b hb; omega

lemma sortByKey_sorted (key : α → Nat) :
    ∀ l : List α, (sortByKey key l).Sorted (fun a b => key a ≤ key b)
  | [] => List.sorted_nil
  | x :: xs => insertStable_sorted key x _ (sortByKey_sorted key xs)

/-! ## Claim theorems: message formatting -/

/-- C8: `notify_game_results` and `notify_tournament_standings` mutate
their caller's input: after the call the caller's players list
(respectively standings list) is the in-place stable sort of the
original, ascending by the `position` key with missing positions
treated as 999 — a permutation of the original, sorted, and in general
different from the original (witnessed by a concrete reordering). -/
theorem notify_sorts_in_place (gr : GameResults) (tn : String)
    (l : List ResultPlayer) (hl : gr.players = some l)
    (standings : List Standing) (tn2 : String) (n : Nat) :
    (notify_game_results gr tn).2.players = some (sortByKey posKeyR l) ∧
    List.Perm (sortByKey posKeyR l) l ∧
    (sortByKey posKeyR l).Sorted (fun a b => posKeyR a ≤ posKeyR b) ∧
    (notify_tournament_standings standings tn2 n).2 = sortByKey posKeyS standings ∧
    List.Perm (sortByKey posKeyS standings) standings ∧
    (sortByKey posKeyS standings).Sorted (fun a b => posKeyS a ≤ posKeyS b) ∧
    (notify_tournament_standings
        [⟨some 2, some "a", 0, 0⟩, ⟨some 1, some "b", 0, 0⟩] "t" 10).2 ≠
      [⟨some 2, some "a", 0, 0⟩, ⟨some 1, some "b", 0, 0⟩] := by
  refine ⟨?_, sortByKey_perm _ l, sortByKey_sorted _ l, rfl,
    sortByKey_perm _ standings, sortByKey_sorted _ standings, by decide⟩
  rw [notify_game_results]
  simp only [hl, Option.map_some']

/-- Witness for C8 at a concrete two-element input. -/
theorem notify_sorts_in_place_witness :
    (notify_game_results ⟨none, none, some [⟨some 5, some "x", 10⟩, ⟨none, some "y", 3⟩]⟩
        "T").2.players =
      some (sortByKey posKeyR [⟨some 5, some "x", 10⟩, ⟨none, some "y", 3⟩]) :=
  (notify_sorts_in_place ⟨none, none, some [⟨some 5, some "x", 10⟩, ⟨none, some "y", 3⟩]⟩
    "T" _ rfl [] "t" 0).1

/-- A block is a tips section iff it is a section whose text starts
with the tips marker 💡 (only `tipText` produces such a text). -/
def headIsTip (s : String) : Bool :=
  match s.data with
  | c :: _ => c == '💡'
  | [] => false

/-- Recognizer for the tips section among the built blocks. -/
def isTipsBlock : Block → Bool
  | .sect s => headIsTip s
  | _ => false

/-- Python truthiness of `'pintips' in assignment and
assignment['pintips']`: the key is present and the list nonempty. -/
def pintipsTruthy (a : Assignment) : Bool :=
  match a.pintips with
  | some tips => !tips.isEmpty
  | none => false

lemma headIsTip_machineText (m pt : String) :
    headIsTip ("*🎮 " ++ m ++ "*\n" ++ pt) = false := by
  have hd : ("*🎮 " ++ m ++ "*\n" ++ pt).data =
      '*' :: ('🎮' :: ' ' :: (m.data ++ ("*\n".data ++ pt.data))) := by
    simp [String.data_append]
  rw [headIsTip, hd]
  rfl

lemma headIsTip_tipText (tips : List String) :
    headIsTip (tipText tips) = true := by
  have hd : (tipText tips).data =
      '💡' :: (" *Tips:*\n".data ++
        (String.join ((tips.take 3).map (fun tip => "• " ++ tip ++ "\n"))).data) := by
    rw [tipText]
    have : ("💡 *Tips:*\n" : String) = "💡" ++ " *Tips:*\n" := rfl
    rw [this, String.data_append, String.data_append]
    rfl
  rw [headIsTip, hd]
  rfl

/-- The tips-section presence in a machine group is decided by the last
assignment's pintips alone. -/
lemma machineBlocks_any_tips (m : String) (g : List Assignment) (h : g ≠ []) :
    (machineBlocks m g).any isTipsBlock = pintipsTruthy (g.getLast h) := by
  rw [machineBlocks, List.getLast?_eq_getLast_of_ne_nil h, pintipsTruthy]
  cases hp : (g.getLast h).pintips with
  | none => simp [hp, isTipsBlock, headIsTip_machineText]
  | some tips =>
    cases he : tips.isEmpty with
    | true =>
      have hnil : tips = [] := List.isEmpty_iff.mp he
      simp [hp, hnil, isTipsBlock, headIsTip_machineText]
    | false =>
      have hnil : tips ≠ [] := by
        intro hc; rw [hc] at he; exact absurd he (by decide)
      simp [hp, he, hnil, isTipsBlock, headIsTip_machineText, headIsTip_tipText]

/-- C9: in `notify_round_start`, a machine group's tips section appears
iff the LAST assignment iterated for that machine has present, nonempty
pintips — the check at line 138 reads the loop variable leaked from the
player loop, so pintips on non-last assignments of a group never
produce a tips section — and when present the section shows at most the
first 3 tips. -/
theorem round_start_tips_last_only (m : String) (g : List Assignment) (h : g ≠ []) :
    ((machineBlocks m g).any isTipsBlock = pintipsTruthy (g.getLast h)) ∧
    (pintipsTruthy (g.getLast h) = true →
      Block.sect (tipText ((g.getLast h).pintips.getD [])) ∈ machineBlocks m g) ∧
    tipText ((g.getLast h).pintips.getD []) =
      tipText (((g.getLast h).pintips.getD []).take 3) ∧
    (((g.getLast h).pintips.getD []).take 3).length ≤ 3 := by
  refine ⟨machineBlocks_any_tips m g h, ?_, ?_, ?_⟩
  · intro ht
    rw [pintipsTruthy] at ht
    rw [machineBlocks, List.getLast?_eq_getLast_of_ne_nil h]
    cases hp : (g.getLast h).pintips with
    | none => rw [hp] at ht; exact absurd ht (by simp)
    | some tips =>
      rw [hp] at ht
      have ht' : (!tips.isEmpty) = true := ht
      have he : tips.isEmpty = false := by
        cases hi : tips.isEmpty
        · rfl
        · rw [hi] at ht'; exact absurd ht' (by decide)
      simp [he, hp]
  · rw [tipText, tipText, List.take_take]
    norm_num
  · exact List.length_take_le 3 _

/-- Witness for C9: a group whose first assignment has pintips but
whose last does not produces no tips section at all. -/
theorem round_start_tips_last_only_witness :
    (machineBlocks "AFM"
      [⟨some "AFM", some "p1", some ["use the flippers"]⟩,
       ⟨some "AFM", some "p2", none⟩]).any isTipsBlock = false := by
  have := (round_start_tips_last_only "AFM"
    [⟨some "AFM", some "p1", some ["use the flippers"]⟩,
     ⟨some "AFM", some "p2", none⟩] (by simp)).1
  rw [this]
  rfl

/-- C10: `notify_tournament_standings` renders at most `top_n` player
entries — the first `top_n` of the sorted standings — and the message
header reports the count actually rendered, `len(top_standings)`, which
equals `min top_n (len standings)` and is less than `top_n` when the
standings list is shorter. -/
theorem standings_top_n (standings : List Standing) (tn : String) (n : Nat) :
    ((notify_tournament_standings standings tn n).1)[1]? =
      some (Block.sect ("*Tournament:* " ++ tn ++ "\n\nHere are the current top " ++
        toString (min n standings.length) ++ " players:")) ∧
    ((notify_tournament_standings standings tn n).1)[3]? =
      some (Block.sect (String.join
        (((sortByKey posKeyS standings).take n).map standingLine))) ∧
    ((sortByKey posKeyS standings).take n).length = min n standings.length ∧
    ((sortByKey posKeyS standings).take n).length ≤ n ∧
    (standings.length < n → ((sortByKey posKeyS standings).take n).length < n) := by
  have hlen : (sortByKey posKeyS standings).length = standings.length :=
    (sortByKey_perm posKeyS standings).length_eq
  have htake : ((sortByKey posKeyS standings).take n).length = min n standings.length := by
    rw [List.length_take, hlen]
  refine ⟨?_, ?_, htake, ?_, ?_⟩
  · rw [notify_tournament_standings]
    simp only [List.getElem?_cons_succ, List.getElem?_cons_zero, htake]
  · rw [notify_tournament_standings]
    simp only [List.getElem?_cons_succ, List.getElem?_cons_zero]
  · rw [htake]; omega
  · intro hlt; rw [htake]; omega

/-- Witness for C10: with a single standing and the default `top_n` of
10, only one entry is rendered. -/
theorem standings_top_n_witness :
    ((sortByKey posKeyS [⟨some 1, some "a", 5, 2⟩]).take 10).length =
      min 10 ([(⟨some 1, some "a", 5, 2⟩ : Standing)] : List Standing).length :=
  (standings_top_n [⟨some 1, some "a", 5, 2⟩] "T" 10).2.2.1

/-! ## Lemmas about the dedup loop -/

lemma observedIn_cons (flag : α → Bool) (idOf : α → Nat) (n : Nat) (r : α) (rs : List α) :
    observedIn flag idOf n (r :: rs) =
      ((flag r && (idOf r == n)) || observedIn flag idOf n rs) := rfl

/-- In one pass, an identifier is notified exactly once if it is newly
observed with the status flag, and zero times otherwise. -/
lemma processNew_fst_count (flag : α → Bool) (idOf : α → Nat) :
    ∀ (l : List α) (seen : List Nat) (n : Nat),
      (processNew flag idOf seen l).1.count n =
        if seen.contains n = false ∧ observedIn flag idOf n l = true then 1 else 0
  | [], seen, n => by simp [processNew, observedIn]
  | r :: rs, seen, n => by
    have ih := processNew_fst_count flag idOf rs
    rw [processNew, observedIn_cons]
    by_cases hc : (flag r && !seen.contains (idOf r)) = true
    · obtain ⟨hflag, hns⟩ : flag r = true ∧ idOf r ∉ seen := by
        simpa [List.elem_eq_mem] using hc
      rw [if_pos hc]
      by_cases hn : idOf r = n
      · subst hn
        rw [List.count_cons_self, ih]
        simp [List.elem_eq_mem, hflag, hns]
      · rw [List.count_cons_of_ne (Ne.symm hn), ih]
        simp [List.elem_eq_mem, hn, Ne.symm hn]
    · have hcp : ¬(flag r = true ∧ idOf r ∉ seen) := by
        intro hand
        exact hc (by simp [List.elem_eq_mem, hand.1, hand.2])
      rw [if_neg hc, ih]
      by_cases hn : idOf r = n
      · subst hn
        by_cases hflag : flag r = true
        · have hsm : idOf r ∈ seen := by
            by_contra hnm
            exact hcp ⟨hflag, hnm⟩
          simp [List.elem_eq_mem, hsm]
        · have hf : flag r = false := by
            cases hff : flag r
            · rfl
            · exact absurd hff hflag
          simp [hf]
      · simp [List.elem_eq_mem, hn, Ne.symm hn]

/-- After one pass, the seen-set holds exactly the previously seen
identifiers plus those newly observed with the flag. -/
lemma processNew_snd_contains (flag : α → Bool) (idOf : α → Nat) :
    ∀ (l : List α) (seen : List Nat) (n : Nat),
      (processNew flag idOf seen l).2.contains n =
        (seen.contains n || observedIn flag idOf n l)
  | [], seen, n => by simp [processNew, observedIn]
  | r :: rs, seen, n => by
    have ih := processNew_snd_contains flag idOf rs
    rw [processNew, observedIn_cons]
    by_cases hc : (flag r && !seen.contains (idOf r)) = true
    · obtain ⟨hflag, hns⟩ : flag r = true ∧ idOf r ∉ seen := by
        simpa [List.elem_eq_mem] using hc
      rw [if_pos hc, ih]
      by_cases hn : idOf r = n
      · subst hn
        simp [List.elem_eq_mem, hflag]
      · have hbeq : (idOf r == n) = false := by simpa using hn
        simp [List.elem_eq_mem, hbeq, Ne.symm hn]
    · have hcp : ¬(flag r = true ∧ idOf r ∉ seen) := by
        intro hand
        exact hc (by simp [List.elem_eq_mem, hand.1, hand.2])
      rw [if_neg hc, ih]
      by_cases hn : idOf r = n
      · subst hn
        by_cases hflag : flag r = true
        · have hsm : idOf r ∈ seen := by
            by_contra hnm
            exact hcp ⟨hflag, hnm⟩
          simp [List.elem_eq_mem, hsm]
        · have hf : flag r = false := by
            cases hff : flag r
            · rfl
            · exact absurd hff hflag
          simp [hf]
      · have hbeq : (idOf r == n) = false := by simpa using hn
        simp [List.elem_eq_mem, hbeq]

/-- A pass never removes identifiers from the seen-set. -/
lemma processNew_snd_subset (flag : α → Bool) (idOf : α → Nat) :
    ∀ (l : List α) (seen : List Nat), seen ⊆ (processNew flag idOf seen l).2
  | [], seen => by simp [processNew]
  | r :: rs, seen => by
    rw [processNew]
    by_cases hc : (flag r && !seen.contains (idOf r)) = true
    · rw [if_pos hc]
      intro a ha
      exact processNew_snd_subset flag idOf rs (seen ++ [idOf r])
        (List.mem_append_left _ ha)
    · rw [if_neg hc]
      exact processNew_snd_subset flag idOf rs seen

/-- One iteration's standings behaviour: the notification fires exactly
when the interval has elapsed; on firing the timestamp becomes `now`,
otherwise it is unchanged. -/
lemma stepPoll_standings (i : Int) (st : MonitorState) (p : Poll) :
    ((stepPoll i st p).standingsSent = true ↔ i ≤ p.time - st.last_standings_update) ∧
    ((stepPoll i st p).standingsSent = true →
      (stepPoll i st p).state.last_standings_update = p.time) ∧
    ((stepPoll i st p).standingsSent = false →
      (stepPoll i st p).state.last_standings_update = st.last_standings_update) := by
  by_cases hle : i ≤ p.time - st.last_standings_update
  · simp [stepPoll, stepStandings, hle]
  · simp [stepPoll, stepStandings, hle]

/-- Round-notification count over a whole run: one per round first
observed active while not yet seen, zero otherwise. -/
lemma runPolls_roundNotifs_count (i : Int) :
    ∀ (ps : List Poll) (st : MonitorState) (R : Nat),
      (runPolls i st ps).roundNotifs.count R =
        if st.processed_rounds.contains R = false ∧ ps.any (observedActiveIn R) = true
        then 1 else 0
  | [], st, R => by simp [runPolls]
  | p :: ps, st, R => by
    have ih := runPolls_roundNotifs_count i ps (stepPoll i st p).state R
    rw [runPolls]
    simp only [List.count_append, List.any_cons]
    rw [show (stepPoll i st p).roundNotifs =
        (processNew RoundObs.active RoundObs.id st.processed_rounds p.rounds).1 from rfl,
      processNew_fst_count, ih,
      show (stepPoll i st p).state.processed_rounds =
        (processNew RoundObs.active RoundObs.id st.processed_rounds p.rounds).2 from rfl,
      processNew_snd_contains]
    rw [show observedIn RoundObs.active RoundObs.id R p.rounds = observedActiveIn R p from rfl]
    rcases Bool.eq_false_or_eq_true (st.processed_rounds.contains R) with ha | ha <;>
      rcases Bool.eq_false_or_eq_true (observedActiveIn R p) with hb | hb <;>
        rcases Bool.eq_false_or_eq_true (ps.any (observedActiveIn R)) with hc | hc <;>
          simp [ha, hb, hc]

/-- Game-notification count over a whole run: one per game first
observed completed while not yet seen, zero otherwise. -/
lemma runPolls_gameNotifs_count (i : Int) :
    ∀ (ps : List Poll) (st : MonitorState) (G : Nat),
      (runPolls i st ps).gameNotifs.count G =
        if st.processed_games.contains G = false ∧ ps.any (observedCompletedIn G) = true
        then 1 else 0
  | [], st, G => by simp [runPolls]
  | p :: ps, st, G => by
    have ih := runPolls_gameNotifs_count i ps (stepPoll i st p).state G
    rw [runPolls]
    simp only [List.count_append, List.any_cons]
    rw [show (stepPoll i st p).gameNotifs =
        (processNew GameObs.completed GameObs.id st.processed_games p.games).1 from rfl,
      processNew_fst_count, ih,
      show (stepPoll i st p).state.processed_games =
        (processNew GameObs.completed GameObs.id st.processed_games p.games).2 from rfl,
      processNew_snd_contains]
    rw [show observedIn GameObs.completed GameObs.id G p.games = observedCompletedIn G p from rfl]
    rcases Bool.eq_false_or_eq_true (st.processed_games.contains G) with ha | ha <;>
      rcases Bool.eq_false_or_eq_true (observedCompletedIn G p) with hb | hb <;>
        rcases Bool.eq_false_or_eq_true (ps.any (observedCompletedIn G)) with hc | hc <;>
          simp [ha, hb, hc]

/-- The standings send times form a chain with gaps of at least the
interval, starting from the current `last_standings_update`. -/
lemma runPolls_sendTimes_chain (i : Int) :
    ∀ (ps : List Poll) (st : MonitorState),
      List.Chain (fun a b => i ≤ b - a) st.last_standings_update
        (runPolls i st ps).sendTimes
  | [], _ => List.Chain.nil
  | p :: ps, st => by
    have ih := runPolls_sendTimes_chain i ps (stepPoll i st p).state
    rw [runPolls]
    cases hs : (stepPoll i st p).standingsSent with
    | true =>
      simp only [hs, if_pos rfl, List.singleton_append]
      refine List.chain_cons.mpr ⟨(stepPoll_standings i st p).1.mp hs, ?_⟩
      rw [(stepPoll_standings i st p).2.1 hs] at ih
      exact ih
    | false =>
      simp only [if_neg Bool.false_ne_true, List.nil_append]
      rw [(stepPoll_standings i st p).2.2 hs] at ih
      exact ih

/-- If a run sends no standings at all, no poll's time ever reached the
interval past the initial timestamp. -/
lemma runPolls_sendTimes_nil (i : Int) :
    ∀ (ps : List Poll) (st : MonitorState),
      (runPolls i st ps).sendTimes = [] →
        ∀ q ∈ ps, ¬ i ≤ q.time - st.last_standings_update
  | [], _, _ => by simp
  | p :: ps, st, hnil => by
    rw [runPolls] at hnil
    rcases List.append_eq_nil.mp hnil with ⟨h1, h2⟩
    have hsent : (stepPoll i st p).standingsSent = false := by
      cases hs : (stepPoll i st p).standingsSent
      · rfl
      · rw [hs] at h1; simp at h1
    have hlast := (stepPoll_standings i st p).2.2 hsent
    intro q hq
    rcases List.mem_cons.mp hq with hq | hq
    · intro hle
      rw [hq] at hle
      have hcontra := (stepPoll_standings i st p).1.mpr hle
      rw [hcontra] at hsent
      cases hsent
    · have := runPolls_sendTimes_nil i ps (stepPoll i st p).state h2 q hq
      rw [hlast] at this
      exact this

/-! ## Claim theorems: the polling loop -/

/-- C1: over any run from the initial (empty) seen-sets, the loop emits
exactly one round-start notification for a round `R` ever observed
active and none otherwise, and exactly one game-result notification for
a game `G` ever observed completed; a step never notifies an identifier
already in its seen-set, a step adds exactly the newly observed
identifiers, and neither seen-set ever shrinks during a run. -/
theorem dedup_notifies_once (interval t0 : Int) (ps : List Poll) (R G : Nat)
    (st : MonitorState) (p : Poll) :
    ((runPolls interval (initState t0) ps).roundNotifs.count R =
      if ps.any (observedActiveIn R) = true then 1 else 0) ∧
    ((runPolls interval (initState t0) ps).gameNotifs.count G =
      if ps.any (observedCompletedIn G) = true then 1 else 0) ∧
    (st.processed_rounds.contains R = true →
      (stepPoll interval st p).roundNotifs.count R = 0) ∧
    (st.processed_games.contains G = true →
      (stepPoll interval st p).gameNotifs.count G = 0) ∧
    ((stepPoll interval st p).state.processed_rounds.contains R =
      (st.processed_rounds.contains R || observedActiveIn R p)) ∧
    ((stepPoll interval st p).state.processed_games.contains G =
      (st.processed_games.contains G || observedCompletedIn G p)) ∧
    st.processed_rounds ⊆ (stepPoll interval st p).state.processed_rounds ∧
    st.processed_games ⊆ (stepPoll interval st p).state.processed_games := by
  refine ⟨?_, ?_, ?_, ?_, ?_, ?_, ?_, ?_⟩
  · rw [runPolls_roundNotifs_count]
    simp [initState]
  · rw [runPolls_gameNotifs_count]
    simp [initState]
  · intro h
    rw [show (stepPoll interval st p).roundNotifs =
      (processNew RoundObs.active RoundObs.id st.processed_rounds p.rounds).1 from rfl,
      processNew_fst_count, if_neg]
    rintro ⟨hc, -⟩
    rw [h] at hc
    cases hc
  · intro h
    rw [show (stepPoll interval st p).gameNotifs =
      (processNew GameObs.completed GameObs.id st.processed_games p.games).1 from rfl,
      processNew_fst_count, if_neg]
    rintro ⟨hc, -⟩
    rw [h] at hc
    cases hc
  · exact processNew_snd_contains _ _ p.rounds st.processed_rounds R
  · exact processNew_snd_contains _ _ p.games st.processed_games G
  · exact processNew_snd_subset _ _ p.rounds st.processed_rounds
  · exact processNew_snd_subset _ _ p.games st.processed_games

/-- Witness for C1: round 1 observed active in both polls is announced
exactly once; game 7 first observed completed in the second poll is
announced exactly once. -/
theorem dedup_notifies_once_witness :
    (runPolls 0 (initState 0)
      [⟨[⟨1, true⟩], [⟨7, false⟩], 0⟩,
       ⟨[⟨1, true⟩, ⟨2, true⟩], [⟨7, true⟩], 5⟩]).roundNotifs.count 1 = 1 ∧
    (runPolls 0 (initState 0)
      [⟨[⟨1, true⟩], [⟨7, false⟩], 0⟩,
       ⟨[⟨1, true⟩, ⟨2, true⟩], [⟨7, true⟩], 5⟩]).gameNotifs.count 7 = 1 := by
  constructor
  · rw [(dedup_notifies_once 0 0
      [⟨[⟨1, true⟩], [⟨7, false⟩], 0⟩,
       ⟨[⟨1, true⟩, ⟨2, true⟩], [⟨7, true⟩], 5⟩] 1 7 (initState 0) ⟨[], [], 0⟩).1]
    decide
  · rw [(dedup_notifies_once 0 0
      [⟨[⟨1, true⟩], [⟨7, false⟩], 0⟩,
       ⟨[⟨1, true⟩, ⟨2, true⟩], [⟨7, true⟩], 5⟩] 1 7 (initState 0) ⟨[], [], 0⟩).2.1]
    decide

/-- C2: a standings notification is sent exactly when
`now - last_standings_update ≥ interval`, after which the timestamp is
set to `now` (and left unchanged otherwise); hence the send times of
any run have inter-arrival gaps of at least the interval, regardless of
how many games completed in between; and a run whose polls reach the
interval past the start time sends at least one standings
notification. -/
theorem standings_throttled (interval t0 : Int) (ps qs : List Poll)
    (st : MonitorState) (p q : Poll) (hq : q ∈ qs) (hqt : interval ≤ q.time - t0) :
    ((stepPoll interval st p).standingsSent = true ↔
      interval ≤ p.time - st.last_standings_update) ∧
    ((stepPoll interval st p).standingsSent = true →
      (stepPoll interval st p).state.last_standings_update = p.time) ∧
    ((stepPoll interval st p).standingsSent = false →
      (stepPoll interval st p).state.last_standings_update = st.last_standings_update) ∧
    List.Chain' (fun a b => interval ≤ b - a) (runPolls interval st ps).sendTimes ∧
    (runPolls interval (initState t0) qs).sendTimes ≠ [] := by
  refine ⟨(stepPoll_standings interval st p).1, (stepPoll_standings interval st p).2.1,
    (stepPoll_standings interval st p).2.2, ?_, ?_⟩
  · have h := runPolls_sendTimes_chain interval ps st
    cases hss : (runPolls interval st ps).sendTimes with
    | nil => exact List.chain'_nil
    | cons a l =>
      rw [hss] at h
      exact (List.chain_cons.mp h).2
  · intro hnil
    have hno := runPolls_sendTimes_nil interval qs (initState t0) hnil q hq
    exact hno (by simp only [initState]; omega)

/-- Witness for C2: a 30-minute interval and a poll 40 minutes in sends
at least one standings notification. -/
theorem standings_throttled_witness :
    (runPolls 30 (initState 0) [⟨[], [], 40⟩]).sendTimes ≠ [] :=
  (standings_throttled 30 0 [] [⟨[], [], 40⟩] (initState 0) ⟨[], [], 0⟩ ⟨[], [], 40⟩
    (List.mem_singleton.mpr rfl) (by norm_num)).2.2.2.2

end Matchplay
